import Mathlib

/-!
Shallow embedding of the shift-scheduling engine in `src/lib/shiftScheduler.ts`
together with its data model from `src/lib/types.ts`.

Modelling conventions:
* Calendar dates are day indices (`Nat`, days since 1970-01-01, UTC midnight);
  `getDay` is JavaScript's `Date.getDay` on such an index (1970-01-01 was a
  Thursday).  The engine stores the ISO date string of a `Date`; at day
  granularity that string is in bijection with the day index, so assignments
  store the index itself.
* JavaScript `Record<string, T>` objects are modelled as functions
  `String → Option T` (absent key = `none`).
* JavaScript numbers are `ℚ` where fractional values occur (hours,
  percentages) and `Nat` elsewhere.  `Number(x)` / `parseInt` on a malformed
  string yields `NaN` in JavaScript; here the parsers return `none` / default
  to `0`, and every theorem that depends on a parsed value is conditioned on
  well-formed `"HH:MM"` input.
* TypeScript's optional `isFollowUp?: boolean` is a `Bool` (an absent field is
  falsy, exactly like `false` in every use site).
-/

structure Employee where
  id : String
  firstName : String
  lastName : String
  kuerzel : Option String
  employeeType : String
  lehrjahr : Option Nat
  grade : Nat
  teamId : String
  specificShiftPercentage : Option ℚ
  allowedShifts : List String
  availability : String → Option Bool

structure Team where
  id : String
  name : String
  overallShiftPercentage : ℚ

structure ShiftType where
  id : String
  name : String
  startTime : String
  endTime : String
  weeklyNeeds : String → Nat

structure LearningYearQualification where
  id : String
  jahr : Nat
  qualifiedShiftTypes : List String

structure ShiftRule where
  id : String
  type : String
  name : String
  fromShiftId : String
  toShiftId : Option String
  toShiftIds : Option (List String)
  sameDay : Option Bool

structure ShiftAssignment where
  employeeId : String
  shiftId : String
  date : Nat
  locked : Bool
  isFollowUp : Bool
deriving DecidableEq

structure WorkloadStats where
  hours : ℚ
  shifts : Nat
  targetPercentage : ℚ
  daysWorkedThisPeriod : List Nat

structure ScheduleOptions where
  startDate : Nat
  endDate : Nat
  employees : List Employee
  teams : List Team
  shiftTypes : List ShiftType
  learningYearQualifications : List LearningYearQualification
  shiftRules : List ShiftRule
  existingAssignments : List ShiftAssignment

structure ScheduleStatistics where
  totalAssignments : Nat
  unassignedShifts : Nat
  employeeWorkloads : String → Option WorkloadStats

structure ScheduleResult where
  assignments : List ShiftAssignment
  conflicts : List String
  statistics : ScheduleStatistics

/-- The scheduler's mutable fields (`assignments`, `conflicts`,
`employeeWorkloads`), passed explicitly through the operations. -/
structure SchedulerState where
  assignments : List ShiftAssignment
  conflicts : List String
  employeeWorkloads : String → Option WorkloadStats

/-- `WEEKDAY_MAPPING` from the source. -/
def WEEKDAY_MAPPING : List String :=
  ["sunday", "monday", "tuesday", "wednesday", "thursday", "friday", "saturday"]

/-- JavaScript `Date.getDay` on a day index (1970-01-01 was a Thursday). -/
def getDay (date : Nat) : Nat := (date + 4) % 7

/-- `ShiftScheduler.getWeekdayName`. -/
def getWeekdayName (date : Nat) : Option String :=
  let dayName := WEEKDAY_MAPPING.getD (getDay date) ""
  if dayName ∈ ["monday", "tuesday", "wednesday", "thursday", "friday"] then
    some dayName
  else
    none

/-- JavaScript `String.prototype.split` with a one-character separator, on
the character list of the string (`split("")` of a nonempty string is not
needed here).  Structural recursion so that the kernel can evaluate it. -/
def splitOnChar (sep : Char) : List Char → List (List Char)
  | [] => [[]]
  | c :: cs =>
    match splitOnChar sep cs with
    | [] => [[]]
    | group :: groups =>
      if c = sep then [] :: group :: groups else (c :: group) :: groups

/-- The value of a decimal digit character. -/
def digitVal (c : Char) : Option Nat :=
  if '0' ≤ c ∧ c ≤ '9' then some (c.toNat - '0'.toNat) else none

def natOfCharsAux : List Char → Nat → Option Nat
  | [], acc => some acc
  | c :: cs, acc =>
    match digitVal c with
    | some d => natOfCharsAux cs (acc * 10 + d)
    | none => none

/-- JavaScript `Number(str)` restricted to nonnegative decimal integer
strings; `none` models the `NaN` outcome on any other input. -/
def natOfChars (l : List Char) : Option Nat :=
  if l = [] then none else natOfCharsAux l 0

/-- `"HH:MM".split(':').map(Number)` destructured into its first two parts;
`none` models the `NaN` outcome on malformed input. -/
def parseTimeHM (s : String) : Option (Nat × Nat) :=
  match (splitOnChar ':' s.data).map natOfChars with
  | some h :: some m :: _ => some (h, m)
  | _ => none

/-- `ShiftScheduler.calculateShiftDuration`.  Malformed time strings yield
`NaN` in the source; that branch is modelled as `0` and all duration theorems
are conditioned on well-formed times. -/
def calculateShiftDuration (st : ShiftType) : ℚ :=
  match parseTimeHM st.startTime, parseTimeHM st.endTime with
  | some (startH, startM), some (endH, endM) =>
    let startMinutes : ℚ := startH * 60 + startM
    let endMinutes : ℚ := endH * 60 + endM
    let endMinutes := if endMinutes < startMinutes then endMinutes + 24 * 60 else endMinutes
    (endMinutes - startMinutes) / 60
  | _, _ => 0

/-- `Number.parseInt(t.split(':')[0])`, defaulting to `0` where JavaScript
produces `NaN` (for a well-formed `"HH:MM"` string the two agree; `parseInt`
additionally tolerates trailing garbage after the digits, which no theorem
below relies on). -/
def hourOfTime (t : String) : Nat :=
  (natOfChars ((splitOnChar ':' t.data).headD [])).getD 0

def startHourOf (st : ShiftType) : Nat := hourOfTime st.startTime

def endHourOf (st : ShiftType) : Nat := hourOfTime st.endTime

/-- Lexicographic order on character lists: JavaScript's `<` on strings
(code-unit comparison; identical to code-point comparison on the
basic-multilingual-plane strings exchanged here). -/
def charListLt : List Char → List Char → Bool
  | [], [] => false
  | [], _ :: _ => true
  | _ :: _, [] => false
  | a :: as, b :: bs => if a < b then true else if b < a then false else charListLt as bs

/-- JavaScript `s < t` on strings. -/
def strLtB (s t : String) : Bool := charListLt s.data t.data

/-- `ShiftScheduler.isEmployeeAvailable`. -/
def isEmployeeAvailable (e : Employee) (date : Nat) (st : ShiftType) : Bool :=
  match getWeekdayName date with
  | none => false
  | some weekday =>
    let shiftStartHour := startHourOf st
    let shiftEndHour := endHourOf st
    if shiftStartHour < 12 ∧ e.availability (weekday ++ "_AM") = some false then
      false
    else if (12 ≤ shiftEndHour ∨ (12 ≤ shiftStartHour ∧ shiftStartHour < 24)) ∧
        e.availability (weekday ++ "_PM") = some false then
      false
    else if strLtB st.endTime st.startTime then
      match getWeekdayName (date + 1) with
      | some nextWeekday =>
        if 0 < shiftEndHour ∧ shiftEndHour < 12 ∧
            e.availability (nextWeekday ++ "_AM") = some false then
          false
        else
          true
      | none => true
    else
      true

/-- `ShiftScheduler.isEmployeeQualified`.  `employee.lehrjahr` is tested for
JavaScript truthiness in the source, so `some 0` behaves like `none`. -/
def isEmployeeQualified (quals : List LearningYearQualification)
    (e : Employee) (st : ShiftType) : Bool :=
  if st.id ∉ e.allowedShifts then
    false
  else if e.employeeType = "azubi" ∧ e.lehrjahr.getD 0 ≠ 0 then
    match quals.find? (fun q => q.jahr == e.lehrjahr.getD 0) with
    | none => false
    | some q => st.id ∈ q.qualifiedShiftTypes
  else
    true

/-- One iteration of the rule loop in `ShiftScheduler.hasShiftRuleConflict`.
The truthiness guards on `fromShiftId`, `toShiftId` and `toShiftIds` mirror
the source's `rule.fromShiftId && (rule.toShiftId || rule.toShiftIds?.length)`. -/
def ruleConflictOne (assignments : List ShiftAssignment) (e : Employee)
    (date : Nat) (st : ShiftType) (rule : ShiftRule) : Option String :=
  if rule.type = "forbidden_sequence" ∧ rule.fromShiftId ≠ "" ∧
      (rule.toShiftId.getD "" ≠ "" ∨ (rule.toShiftIds.getD []).length ≠ 0) then
    if rule.sameDay = some true then
      let existingAssignment := assignments.find? (fun a =>
        a.employeeId == e.id && a.date == date && a.shiftId == rule.fromShiftId)
      if existingAssignment.isSome ∧
          ((rule.toShiftIds.getD []).contains st.id ∨ rule.toShiftId = some st.id) then
        some ("Forbidden same-day sequence: " ++ rule.name)
      else
        none
    else
      let previousDate := date - 1
      let previousAssignment := assignments.find? (fun a =>
        a.employeeId == e.id && a.date == previousDate && a.shiftId == rule.fromShiftId)
      if previousAssignment.isSome ∧
          ((rule.toShiftIds.getD []).contains st.id ∨ rule.toShiftId = some st.id) then
        some ("Forbidden next-day sequence: " ++ rule.name)
      else
        none
  else
    none

/-- `ShiftScheduler.hasShiftRuleConflict`: first conflict message over the
rule list, if any. -/
def hasShiftRuleConflict (rules : List ShiftRule) (assignments : List ShiftAssignment)
    (e : Employee) (date : Nat) (st : ShiftType) : Option String :=
  rules.findSome? (ruleConflictOne assignments e date st)

/-- `ShiftScheduler.checkMandatoryFollowUps`. -/
def checkMandatoryFollowUps (quals : List LearningYearQualification)
    (shiftTypes : List ShiftType) (rules : List ShiftRule)
    (e : Employee) (date : Nat) (st : ShiftType) : Option ShiftType :=
  let mandatoryRules := rules.filter (fun r =>
    r.type == "mandatory_follow_up" && r.fromShiftId == st.id)
  mandatoryRules.findSome? (fun rule =>
    match rule.toShiftId with
    | some toId =>
      if toId = "" then none
      else
        match shiftTypes.find? (fun s => s.id == toId) with
        | some followUpShiftType =>
          if isEmployeeQualified quals e followUpShiftType ∧
              isEmployeeAvailable e date followUpShiftType then
            some followUpShiftType
          else
            none
        | none => none
    | none => none)

/-- The `hours`/`shifts`/`daysWorkedThisPeriod` update performed on an
employee's `WorkloadStats` when an assignment is recorded. -/
def updateWL (w : String → Option WorkloadStats) (id : String) (duration : ℚ)
    (dateStr : Nat) : String → Option WorkloadStats :=
  fun k =>
    if k = id then
      (w id).map (fun stats =>
        { hours := stats.hours + duration
          shifts := stats.shifts + 1
          targetPercentage := stats.targetPercentage
          daysWorkedThisPeriod := stats.daysWorkedThisPeriod ++ [dateStr] })
    else
      w k

/-- The assignment-record push plus workload update from the body of
`ShiftScheduler.assignShift` (the code after both occupancy guards). -/
def pushAssignment (e : Employee) (date : Nat) (st : ShiftType)
    (isFollowUp : Bool) (s : SchedulerState) : SchedulerState :=
  let assignment : ShiftAssignment :=
    { employeeId := e.id, shiftId := st.id, date := date,
      locked := false, isFollowUp := isFollowUp }
  { s with
    assignments := s.assignments ++ [assignment]
    employeeWorkloads := updateWL s.employeeWorkloads e.id (calculateShiftDuration st) date }

/-- `ShiftScheduler.assignShift`.  The source ends with a recursive call
`assignShift(employee, date, followUpShift, true)`; with `isFollowUp = true`
both occupancy guards are skipped and the follow-up chain condition
`followUpShift && !isFollowUp` is false, so that call unconditionally appends
one record and returns — the depth-1 recursion is unrolled into
`pushAssignment` here. -/
def assignShift (env : ScheduleOptions) (e : Employee) (date : Nat)
    (st : ShiftType) (isFollowUp : Bool) (s : SchedulerState) :
    Bool × SchedulerState :=
  if (s.assignments.find? (fun a =>
      a.date == date && a.shiftId == st.id)).isSome ∧ isFollowUp = false then
    (false, s)
  else if isFollowUp = false ∧ (s.assignments.find? (fun a =>
      a.employeeId == e.id && a.date == date && !a.isFollowUp)).isSome then
    (false, s)
  else
    match isFollowUp, checkMandatoryFollowUps env.learningYearQualifications
        env.shiftTypes env.shiftRules e date st with
    | false, some followUp =>
      (true, pushAssignment e date followUp true (pushAssignment e date st isFollowUp s))
    | _, _ => (true, pushAssignment e date st isFollowUp s)

/-- The workload key `(shiftCount, hours)` read by the sort comparator in
`ShiftScheduler.sortEmployeesByWorkload`.  The source indexes
`employeeWorkloads` unconditionally (every employee is seeded by the
constructor); a missing entry — a crash in JavaScript — defaults to `(0, 0)`. -/
def wlKey (w : String → Option WorkloadStats) (e : Employee) : Nat × ℚ :=
  match w e.id with
  | some stats => (stats.shifts, stats.hours)
  | none => (0, 0)

/-- The comparator of `sortEmployeesByWorkload` as a `≤`-test: shift count
first, hours as tie break (`c(a,b) ≤ 0` for the source's numeric comparator). -/
def wlLe (w : String → Option WorkloadStats) (a b : Employee) : Bool :=
  if (wlKey w a).1 = (wlKey w b).1 then
    decide ((wlKey w a).2 ≤ (wlKey w b).2)
  else
    decide ((wlKey w a).1 ≤ (wlKey w b).1)

/-- Stable insertion step: place `x` before the first element `y` with
`le x y`. -/
def insertLe (le : α → α → Bool) (x : α) : List α → List α
  | [] => [x]
  | y :: ys => if le x y then x :: y :: ys else y :: insertLe le x ys

/-- Stable insertion sort; realizes JavaScript's stable
`Array.prototype.sort` for a comparator whose `≤`-test is `le` (elements
equal under `le` keep their original relative order). -/
def sortLe (le : α → α → Bool) : List α → List α
  | [] => []
  | x :: xs => insertLe le x (sortLe le xs)

/-- `ShiftScheduler.sortEmployeesByWorkload`. -/
def sortEmployeesByWorkload (env : ScheduleOptions)
    (w : String → Option WorkloadStats) : List Employee :=
  sortLe (wlLe w) env.employees

/-- The `≤`-test of the `requiredShifts` comparator in
`ShiftScheduler.scheduleDay` (`aStart - bStart`, start hours only). -/
def hourLe (a b : ShiftType × Nat) : Bool :=
  decide (startHourOf a.1 ≤ startHourOf b.1)

/-- The `requiredShifts` list of `scheduleDay` before sorting: shift types
with nonzero need for the weekday, in their original order. -/
def neededShiftsFor (shiftTypes : List ShiftType) (weekday : String) :
    List (ShiftType × Nat) :=
  shiftTypes.filterMap (fun st =>
    let need := st.weeklyNeeds weekday
    if 0 < need then some (st, need) else none)

/-- The `requiredShifts` list of `scheduleDay` after its sort. -/
def requiredShiftsFor (shiftTypes : List ShiftType) (weekday : String) :
    List (ShiftType × Nat) :=
  sortLe hourLe (neededShiftsFor shiftTypes weekday)

/-- The employee loop of `ShiftScheduler.tryAssignShiftWithStrategy`. -/
def tryStrategyLoop (env : ScheduleOptions) (date : Nat) (st : ShiftType)
    (enforceRules : Bool) : List Employee → SchedulerState → Bool × SchedulerState
  | [], s => (false, s)
  | e :: rest, s =>
    if s.assignments.any (fun a =>
        a.employeeId == e.id && a.date == date && !a.isFollowUp) then
      tryStrategyLoop env date st enforceRules rest s
    else if !isEmployeeQualified env.learningYearQualifications e st then
      tryStrategyLoop env date st enforceRules rest s
    else if !isEmployeeAvailable e date st then
      tryStrategyLoop env date st enforceRules rest s
    else if enforceRules &&
        (hasShiftRuleConflict env.shiftRules s.assignments e date st).isSome then
      tryStrategyLoop env date st enforceRules rest s
    else
      match assignShift env e date st false s with
      | (true, s1) => (true, s1)
      | (false, s1) => tryStrategyLoop env date st enforceRules rest s1

/-- `ShiftScheduler.tryAssignShiftWithStrategy`: the candidate list is the
workload-sorted snapshot taken before the loop. -/
def tryAssignShiftWithStrategy (env : ScheduleOptions) (date : Nat)
    (st : ShiftType) (enforceRules : Bool) (s : SchedulerState) :
    Bool × SchedulerState :=
  tryStrategyLoop env date st enforceRules
    (sortEmployeesByWorkload env s.employeeWorkloads) s

/-- The conflict string pushed by `tryEmergencyAssignment` on success. -/
def emergencyMsg (e : Employee) (st : ShiftType) (date : Nat) : String :=
  "Emergency assignment: " ++ e.firstName ++ " " ++ e.lastName ++
    " assigned to " ++ st.name ++ " on " ++ toString date ++
    " (may violate availability or rules)"

/-- The employee loop of `ShiftScheduler.tryEmergencyAssignment`. -/
def tryEmergencyLoop (env : ScheduleOptions) (date : Nat) (st : ShiftType) :
    List Employee → SchedulerState → Bool × SchedulerState
  | [], s => (false, s)
  | e :: rest, s =>
    if s.assignments.any (fun a =>
        a.employeeId == e.id && a.date == date && !a.isFollowUp) then
      tryEmergencyLoop env date st rest s
    else if !isEmployeeQualified env.learningYearQualifications e st then
      tryEmergencyLoop env date st rest s
    else
      match assignShift env e date st false s with
      | (true, s1) =>
        (true, { s1 with conflicts := s1.conflicts ++ [emergencyMsg e st date] })
      | (false, s1) => tryEmergencyLoop env date st rest s1

/-- `ShiftScheduler.tryEmergencyAssignment`. -/
def tryEmergencyAssignment (env : ScheduleOptions) (date : Nat)
    (st : ShiftType) (s : SchedulerState) : Bool × SchedulerState :=
  tryEmergencyLoop env date st
    (sortEmployeesByWorkload env s.employeeWorkloads) s

/-- The `Unassigned shift` conflict string of `scheduleDay`. -/
def unassignedMsg (st : ShiftType) (date : Nat) (position : Nat) : String :=
  "Unassigned shift: " ++ st.name ++ " on " ++ toString date ++
    " (Position " ++ toString position ++ ")"

/-- One iteration of the `for (let i = 0; i < needed; i++)` escalation loop
of `scheduleDay`: strict strategy, then relaxed, then emergency, then an
`Unassigned shift` conflict for 1-based position `i + 1`. -/
def scheduleSlotStep (env : ScheduleOptions) (date : Nat) (st : ShiftType)
    (i : Nat) (s : SchedulerState) : SchedulerState :=
  match tryAssignShiftWithStrategy env date st true s with
  | (true, s1) => s1
  | (false, s1) =>
    match tryAssignShiftWithStrategy env date st false s1 with
    | (true, s2) => s2
    | (false, s2) =>
      match tryEmergencyAssignment env date st s2 with
      | (true, s3) => s3
      | (false, s3) =>
        { s3 with conflicts := s3.conflicts ++ [unassignedMsg st date (i + 1)] }

/-- The escalation loop of `scheduleDay`: `n` slots remain, `i` is the
0-based slot index reached so far. -/
def scheduleSlots (env : ScheduleOptions) (date : Nat) (st : ShiftType) :
    Nat → Nat → SchedulerState → SchedulerState
  | 0, _, s => s
  | n + 1, i, s => scheduleSlots env date st n (i + 1) (scheduleSlotStep env date st i s)

/-- `ShiftScheduler.scheduleDay`. -/
def scheduleDay (env : ScheduleOptions) (date : Nat) (weekday : String)
    (s : SchedulerState) : SchedulerState :=
  (requiredShiftsFor env.shiftTypes weekday).foldl (fun s stc =>
    scheduleSlots env date stc.1
      (stc.2 - (s.assignments.filter (fun a =>
        a.date == date && a.shiftId == stc.1.id && !a.isFollowUp)).length)
      0 s) s

/-- Processing of one `fromAssignment` inside
`ShiftScheduler.enforceMandatoryFollowUps` (the body of the inner loop, for a
rule whose `toShiftId` is the truthy `toId`). -/
def enforceFollowUpFor (env : ScheduleOptions) (toId : String)
    (fa : ShiftAssignment) (s : SchedulerState) : SchedulerState :=
  match env.employees.find? (fun e => e.id == fa.employeeId),
      env.shiftTypes.find? (fun st => st.id == toId) with
  | some employee, some toShiftType =>
    if (s.assignments.find? (fun a =>
        a.employeeId == employee.id && a.date == fa.date && a.shiftId == toId)).isSome then
      s
    else
      if s.assignments.any (fun a =>
          a.date == fa.date && a.shiftId == toId && !a.isFollowUp) then
        { s with conflicts := s.conflicts ++
          ["Mandatory follow-up conflict: " ++ employee.firstName ++ " " ++
            employee.lastName ++ " needs " ++ toShiftType.name ++ " on " ++
            toString fa.date ++ " but slot is occupied"] }
      else if !isEmployeeQualified env.learningYearQualifications employee toShiftType then
        { s with conflicts := s.conflicts ++
          ["Mandatory follow-up conflict: " ++ employee.firstName ++ " " ++
            employee.lastName ++ " not qualified for " ++ toShiftType.name ++
            " on " ++ toString fa.date] }
      else if !isEmployeeAvailable employee fa.date toShiftType then
        { s with conflicts := s.conflicts ++
          ["Mandatory follow-up conflict: " ++ employee.firstName ++ " " ++
            employee.lastName ++ " not available for " ++ toShiftType.name ++
            " on " ++ toString fa.date] }
      else
        (assignShift env employee fa.date toShiftType true s).2
  | _, _ => s

/-- `ShiftScheduler.enforceMandatoryFollowUps`.  For each rule the
`fromAssignments` filter is a snapshot taken before the inner loop mutates
the store, exactly as `Array.prototype.filter` snapshots in the source. -/
def enforceMandatoryFollowUps (env : ScheduleOptions) (s : SchedulerState) :
    SchedulerState :=
  (env.shiftRules.filter (fun r => r.type == "mandatory_follow_up")).foldl
    (fun s rule =>
      match rule.toShiftId with
      | none => s
      | some toId =>
        if toId = "" then s
        else
          let fromAssignments := s.assignments.filter (fun a =>
            a.shiftId == rule.fromShiftId && !a.isFollowUp)
          fromAssignments.foldl (fun s fa => enforceFollowUpFor env toId fa s) s)
    s

/-- The per-employee seeding loop of `ShiftScheduler.initializeWorkloads`
(zero stats with the effective target percentage, later employees last). -/
def initialWorkloads (env : ScheduleOptions) : String → Option WorkloadStats :=
  env.employees.foldl (fun w e =>
    let team := env.teams.find? (fun t => t.id == e.teamId)
    let effectivePercentage := e.specificShiftPercentage.getD
      ((team.map Team.overallShiftPercentage).getD 100)
    fun id =>
      if id = e.id then
        some { hours := 0, shifts := 0, targetPercentage := effectivePercentage,
               daysWorkedThisPeriod := [] }
      else
        w id)
    (fun _ => none)

/-- The existing-assignment replay loop of `initializeWorkloads`. -/
def seedWorkloads (env : ScheduleOptions)
    (w : String → Option WorkloadStats) : String → Option WorkloadStats :=
  env.existingAssignments.foldl (fun w a =>
    match w a.employeeId with
    | some _ =>
      match env.shiftTypes.find? (fun st => st.id == a.shiftId) with
      | some shiftType => updateWL w a.employeeId (calculateShiftDuration shiftType) a.date
      | none => w
    | none => w)
    w

/-- The scheduler state right after the constructor ran (with the
`conflicts = []` reset that `schedule` performs first). -/
def initState (env : ScheduleOptions) : SchedulerState :=
  { assignments := env.existingAssignments
    conflicts := []
    employeeWorkloads := seedWorkloads env (initialWorkloads env) }

/-- The `while (currentDate <= endDate)` day loop of `schedule`. -/
def runDays (env : ScheduleOptions) (s : SchedulerState) : SchedulerState :=
  (List.range' env.startDate (env.endDate + 1 - env.startDate)).foldl
    (fun s d =>
      match getWeekdayName d with
      | some weekday => scheduleDay env d weekday s
      | none => s)
    s

/-- The scheduler state after the day loop and the mandatory-follow-up
sweep. -/
def finalState (env : ScheduleOptions) : SchedulerState :=
  enforceMandatoryFollowUps env (runDays env (initState env))

/-- `ShiftScheduler.countUnassignedShifts`. -/
def countUnassignedShifts (env : ScheduleOptions)
    (assignments : List ShiftAssignment) : Nat :=
  (List.range' env.startDate (env.endDate + 1 - env.startDate)).foldl
    (fun acc d =>
      match getWeekdayName d with
      | some weekday =>
        env.shiftTypes.foldl (fun acc2 st =>
          let need := st.weeklyNeeds weekday
          let assigned := (assignments.filter (fun a =>
            a.date == d && a.shiftId == st.id && !a.isFollowUp)).length
          acc2 + (need - assigned)) acc
      | none => acc)
    0

/-- `ShiftScheduler.schedule`. -/
def schedule (env : ScheduleOptions) : ScheduleResult :=
  { assignments := (finalState env).assignments
    conflicts := (finalState env).conflicts
    statistics :=
      { totalAssignments := (finalState env).assignments.length
        unassignedShifts := countUnassignedShifts env (finalState env).assignments
        employeeWorkloads := (finalState env).employeeWorkloads } }

/-- `generateShiftSchedule`. -/
def generateShiftSchedule (options : ScheduleOptions) : ScheduleResult :=
  schedule options

/-- No two primary (non-follow-up) assignments share the same
`(date, shiftId)` slot. -/
def noPrimarySlotClash (l : List ShiftAssignment) : Prop :=
  l.Pairwise (fun a b => a.isFollowUp = false → b.isFollowUp = false →
    ¬(a.date = b.date ∧ a.shiftId = b.shiftId))

/-- No employee holds two primary (non-follow-up) assignments on the same
date.  Follow-up assignments are unconstrained, so an employee may accumulate
several of them on one date. -/
def onePrimaryPerEmployeeDate (l : List ShiftAssignment) : Prop :=
  l.Pairwise (fun a b => a.isFollowUp = false → b.isFollowUp = false →
    ¬(a.employeeId = b.employeeId ∧ a.date = b.date))

/-- Reachability between scheduler states during a run: the engine only ever
commits assignments through `assignShift` and appends conflict strings; every
state the Assignment Store passes through during `schedule` is `Evolves`-
reachable from the post-constructor state. -/
inductive Evolves (env : ScheduleOptions) : SchedulerState → SchedulerState → Prop
  | refl (s : SchedulerState) : Evolves env s s
  | assign (e : Employee) (d : Nat) (st : ShiftType) (fu : Bool)
      {s₁ s₂ : SchedulerState} (h : Evolves env s₁ s₂) :
      Evolves env s₁ (assignShift env e d st fu s₂).2
  | pushConflict (msg : String) {s₁ s₂ : SchedulerState} (h : Evolves env s₁ s₂) :
      Evolves env s₁ { s₂ with conflicts := s₂.conflicts ++ [msg] }

/-! ### Concrete data used by counterexamples and witnesses -/

/-- A shift type starting at `"08:30"`, listed first. -/
def cexShiftA : ShiftType :=
  { id := "A", name := "A", startTime := "08:30", endTime := "16:00",
    weeklyNeeds := fun _ => 1 }

/-- A shift type starting at `"08:15"` — textually earlier than `"08:30"`
but with the same start hour — listed second. -/
def cexShiftB : ShiftType :=
  { id := "B", name := "B", startTime := "08:15", endTime := "16:00",
    weeklyNeeds := fun _ => 1 }

/-- The overnight example shift `"22:00"`–`"06:00"`. -/
def sampleShiftNight : ShiftType :=
  { id := "night", name := "Night", startTime := "22:00", endTime := "06:00",
    weeklyNeeds := fun _ => 0 }

/-- The daytime example shift `"08:00"`–`"16:00"`. -/
def sampleShiftDay : ShiftType :=
  { id := "day", name := "Day", startTime := "08:00", endTime := "16:00",
    weeklyNeeds := fun _ => 0 }

/-- The zero-length example shift `"09:00"`–`"09:00"`. -/
def sampleShiftZero : ShiftType :=
  { id := "zero", name := "Zero", startTime := "09:00", endTime := "09:00",
    weeklyNeeds := fun _ => 0 }

/-- An overnight shift ending at `"00:30"`: its end hour is `0`, which is
before noon but fails the source's `shiftEndHour > 0` test. -/
def cexNightShift : ShiftType :=
  { id := "mid", name := "Mid", startTime := "22:00", endTime := "00:30",
    weeklyNeeds := fun _ => 0 }

/-- An employee who is explicitly unavailable on Tuesday mornings and has no
other explicit availability entries. -/
def cexEmpC5 : Employee :=
  { id := "e2", firstName := "Erika", lastName := "Muster", kuerzel := none,
    employeeType := "ausgelernt", lehrjahr := none, grade := 100, teamId := "t1",
    specificShiftPercentage := none, allowedShifts := ["s1"],
    availability := fun k => if k = "tuesday_AM" then some false else none }

/-- A plain daytime shift type with id `"s1"` needing one head on every
weekday. -/
def cexSlotShift : ShiftType :=
  { id := "s1", name := "S1", startTime := "08:00", endTime := "16:00",
    weeklyNeeds := fun _ => 1 }

/-- Options with the single employee `cexEmpC5` (qualified for `"s1"`), one
shift type and no rules, over the single Monday day index 4. -/
def cexEnvC1 : ScheduleOptions :=
  { startDate := 4, endDate := 4, employees := [cexEmpC5], teams := [],
    shiftTypes := [cexSlotShift], learningYearQualifications := [],
    shiftRules := [], existingAssignments := [] }

/-- A store whose only record in slot `(4, "s1")` is a follow-up assignment
of another employee. -/
def cexStateC1 : SchedulerState :=
  { assignments := [⟨"e1", "s1", 4, false, true⟩]
    conflicts := []
    employeeWorkloads := fun _ => none }

/-- The empty scheduler state. -/
def stateEmpty : SchedulerState :=
  { assignments := [], conflicts := [], employeeWorkloads := fun _ => none }

/-- Options for a run with no employees, no shift types, no rules and an
empty day range. -/
def optsTrivial : ScheduleOptions :=
  { startDate := 5, endDate := 4, employees := [], teams := [], shiftTypes := [],
    learningYearQualifications := [], shiftRules := [], existingAssignments := [] }

/-- A pre-existing locked assignment. -/
def lockedAssign : ShiftAssignment :=
  { employeeId := "e9", shiftId := "s9", date := 4, locked := true, isFollowUp := false }

/-- `optsTrivial` seeded with one pre-existing locked assignment. -/
def optsLocked : ScheduleOptions :=
  { optsTrivial with existingAssignments := [lockedAssign] }

/-! ### Generic facts about the stable insertion sort `sortLe` -/

theorem insertLe_perm (le : α → α → Bool) (x : α) (l : List α) :
    (insertLe le x l).Perm (x :: l) := by
  induction l with
  | nil => simp [insertLe]
  | cons y ys ih =>
    simp only [insertLe]
    split
    · exact List.Perm.refl _
    · exact (ih.cons y).trans (List.Perm.swap x y ys)

theorem sortLe_perm (le : α → α → Bool) (l : List α) : (sortLe le l).Perm l := by
  induction l with
  | nil => simp [sortLe]
  | cons x xs ih => exact (insertLe_perm le x (sortLe le xs)).trans (ih.cons x)

theorem insertLe_pairwise (le : α → α → Bool)
    (htot : ∀ a b, le a b = false → le b a = true)
    (htrans : ∀ a b c, le a b = true → le b c = true → le a c = true)
    (x : α) (l : List α) (h : l.Pairwise (fun a b => le a b = true)) :
    (insertLe le x l).Pairwise (fun a b => le a b = true) := by
  induction l with
  | nil => simp [insertLe]
  | cons y ys ih =>
    rw [List.pairwise_cons] at h
    obtain ⟨hy, hys⟩ := h
    simp only [insertLe]
    by_cases hxy : le x y = true
    · simp only [hxy, if_true]
      rw [List.pairwise_cons]
      refine ⟨?_, ?_⟩
      · intro a ha
        rcases List.mem_cons.mp ha with rfl | ha
        · exact hxy
        · exact htrans x y a hxy (hy a ha)
      · rw [List.pairwise_cons]
        exact ⟨hy, hys⟩
    · rw [Bool.not_eq_true] at hxy
      rw [if_neg (by simp [hxy])]
      rw [List.pairwise_cons]
      refine ⟨?_, ih hys⟩
      intro a ha
      have ha' := (insertLe_perm le x ys).mem_iff.mp ha
      rcases List.mem_cons.mp ha' with rfl | ha'
      · exact htot _ y hxy
      · exact hy a ha'

theorem sortLe_pairwise (le : α → α → Bool)
    (htot : ∀ a b, le a b = false → le b a = true)
    (htrans : ∀ a b c, le a b = true → le b c = true → le a c = true)
    (l : List α) : (sortLe le l).Pairwise (fun a b => le a b = true) := by
  induction l with
  | nil => simp [sortLe]
  | cons x xs ih => exact insertLe_pairwise le htot htrans x _ ih

theorem insertLe_filter_pos (le : α → α → Bool) (p : α → Bool) {x : α}
    (hx : p x = true) (hties : ∀ y, p y = true → le x y = true) (l : List α) :
    (insertLe le x l).filter p = x :: l.filter p := by
  induction l with
  | nil => simp [insertLe, hx]
  | cons y ys ih =>
    simp only [insertLe]
    by_cases hxy : le x y = true
    · simp [hxy, List.filter_cons, hx]
    · rw [Bool.not_eq_true] at hxy
      have hpy : p y = false := by
        cases hpy : p y with
        | false => rfl
        | true => rw [hties y hpy] at hxy; exact absurd hxy (by simp)
      simp [hxy, List.filter_cons, hpy, ih]

theorem insertLe_filter_neg (le : α → α → Bool) (p : α → Bool) {x : α}
    (hx : p x = false) (l : List α) :
    (insertLe le x l).filter p = l.filter p := by
  induction l with
  | nil => simp [insertLe, hx]
  | cons y ys ih =>
    simp only [insertLe]
    by_cases hxy : le x y = true
    · simp [hxy, List.filter_cons, hx]
    · rw [Bool.not_eq_true] at hxy
      simp [hxy, List.filter_cons, ih]

theorem sortLe_filter (le : α → α → Bool) (p : α → Bool)
    (hties : ∀ a b, p a = true → p b = true → le a b = true) (l : List α) :
    (sortLe le l).filter p = l.filter p := by
  induction l with
  | nil => rfl
  | cons x xs ih =>
    by_cases hx : p x = true
    · rw [sortLe, insertLe_filter_pos le p hx (fun y hy => hties x y hx hy), ih,
        List.filter_cons_of_pos hx]
    · rw [Bool.not_eq_true] at hx
      rw [sortLe, insertLe_filter_neg le p hx, ih, List.filter_cons_of_neg (by simp [hx])]

/-! ### Properties of the two sorts used by the engine -/

theorem wlLe_total (w : String → Option WorkloadStats) (a b : Employee)
    (h : wlLe w a b = false) : wlLe w b a = true := by
  unfold wlLe at *
  by_cases h1 : (wlKey w a).1 = (wlKey w b).1
  · rw [if_pos h1] at h
    rw [if_pos h1.symm]
    simp only [decide_eq_false_iff_not, not_le] at h
    simpa using le_of_lt h
  · rw [if_neg h1] at h
    rw [if_neg (fun hc => h1 hc.symm)]
    simp only [decide_eq_false_iff_not, not_le] at h
    simpa using Nat.le_of_lt h

theorem wlLe_trans (w : String → Option WorkloadStats) (a b c : Employee)
    (hab : wlLe w a b = true) (hbc : wlLe w b c = true) : wlLe w a c = true := by
  unfold wlLe at *
  by_cases h1 : (wlKey w a).1 = (wlKey w b).1 <;>
    by_cases h2 : (wlKey w b).1 = (wlKey w c).1
  · rw [if_pos h1] at hab
    rw [if_pos h2] at hbc
    rw [if_pos (h1.trans h2)]
    simp only [decide_eq_true_eq] at *
    exact le_trans hab hbc
  · rw [if_pos h1] at hab
    rw [if_neg h2] at hbc
    rw [if_neg (by rw [h1]; exact h2)]
    simpa [h1] using hbc
  · rw [if_neg h1] at hab
    rw [if_pos h2] at hbc
    rw [if_neg (by rw [← h2]; exact h1)]
    simpa [h2] using hab
  · rw [if_neg h1] at hab
    rw [if_neg h2] at hbc
    simp only [decide_eq_true_eq] at hab hbc
    have hlt1 : (wlKey w a).1 < (wlKey w b).1 := lt_of_le_of_ne hab h1
    have hlt2 : (wlKey w b).1 < (wlKey w c).1 := lt_of_le_of_ne hbc h2
    rw [if_neg (Nat.ne_of_lt (lt_trans hlt1 hlt2))]
    simp [Nat.le_of_lt (lt_trans hlt1 hlt2)]

theorem wlLe_of_tie (w : String → Option WorkloadStats) (a b : Employee)
    (h : wlKey w a = wlKey w b) : wlLe w a b = true := by
  unfold wlLe
  rw [if_pos (congrArg Prod.fst h), h]
  simp

/-- C8.  `sortEmployeesByWorkload` sorts the employee list ascending by the
lexicographic pair `(shiftCount, hours)` of each employee's current workload,
it is a permutation of the input, and employees with equal keys keep their
original input order (stability, stated as equality of the key-class
sublists). -/
theorem sortEmployeesByWorkload_spec (env : ScheduleOptions)
    (w : String → Option WorkloadStats) :
    (sortEmployeesByWorkload env w).Pairwise (fun a b =>
      (wlKey w a).1 < (wlKey w b).1 ∨
      ((wlKey w a).1 = (wlKey w b).1 ∧ (wlKey w a).2 ≤ (wlKey w b).2)) ∧
    (sortEmployeesByWorkload env w).Perm env.employees ∧
    ∀ k : Nat × ℚ,
      (sortEmployeesByWorkload env w).filter (fun e => decide (wlKey w e = k)) =
      env.employees.filter (fun e => decide (wlKey w e = k)) := by
  refine ⟨?_, sortLe_perm _ _, ?_⟩
  · have hp := sortLe_pairwise (wlLe w) (wlLe_total w) (wlLe_trans w) env.employees
    refine hp.imp ?_
    intro a b hab
    unfold wlLe at hab
    by_cases h1 : (wlKey w a).1 = (wlKey w b).1
    · rw [if_pos h1] at hab
      exact Or.inr ⟨h1, by simpa using hab⟩
    · rw [if_neg h1] at hab
      exact Or.inl (lt_of_le_of_ne (by simpa using hab) h1)
  · intro k
    refine sortLe_filter (wlLe w) _ ?_ env.employees
    intro a b ha hb
    simp only [decide_eq_true_eq] at ha hb
    exact wlLe_of_tie w a b (ha.trans hb.symm)

theorem hourLe_total (a b : ShiftType × Nat) (h : hourLe a b = false) :
    hourLe b a = true := by
  unfold hourLe at *
  simp only [decide_eq_false_iff_not, not_le] at h
  simpa using Nat.le_of_lt h

theorem hourLe_trans (a b c : ShiftType × Nat)
    (hab : hourLe a b = true) (hbc : hourLe b c = true) : hourLe a c = true := by
  unfold hourLe at *
  simp only [decide_eq_true_eq] at *
  exact le_trans hab hbc

/-- C6 (amended).  On a working day, `scheduleDay` processes the shift types
with nonzero need in ascending order of their parsed start *hour* (the
comparator reads `parseInt` of the text before the first `:` only, not the
full `"HH:MM"` string); shift types with equal start hours keep their
original order in the shift-type list. -/
theorem requiredShifts_sorted_by_hour (shiftTypes : List ShiftType) (weekday : String) :
    (requiredShiftsFor shiftTypes weekday).Pairwise (fun a b =>
      startHourOf a.1 ≤ startHourOf b.1) ∧
    (requiredShiftsFor shiftTypes weekday).Perm (neededShiftsFor shiftTypes weekday) ∧
    ∀ k : Nat,
      (requiredShiftsFor shiftTypes weekday).filter (fun a => decide (startHourOf a.1 = k)) =
      (neededShiftsFor shiftTypes weekday).filter (fun a => decide (startHourOf a.1 = k)) := by
  refine ⟨?_, sortLe_perm _ _, ?_⟩
  · have hp := sortLe_pairwise hourLe hourLe_total hourLe_trans
      (neededShiftsFor shiftTypes weekday)
    refine hp.imp ?_
    intro a b hab
    unfold hourLe at hab
    simpa using hab
  · intro k
    refine sortLe_filter hourLe _ ?_ _
    intro a b ha hb
    unfold hourLe
    simp only [decide_eq_true_eq] at *
    rw [ha, hb]

/-- C6, counterexample to the claim as stated: two needed shift types whose
start times differ textually (`"08:15" < "08:30"`) but share the start hour
are processed in original list order, so the textually earlier start time is
*not* filled first. -/
theorem requiredShifts_not_sorted_by_time_cex :
    (requiredShiftsFor [cexShiftA, cexShiftB] "monday").map (fun x => x.1.startTime) =
      ["08:30", "08:15"] ∧
    strLtB "08:15" "08:30" = true ∧ ("08:15" : String) ≠ "08:30" := by
  refine ⟨rfl, by decide, by decide⟩

/-! ### The duration calculator -/

/-- Closed form of `calculateShiftDuration` once both times parse. -/
theorem calculateShiftDuration_eval (st : ShiftType) (sh sm eh em : Nat)
    (hs : parseTimeHM st.startTime = some (sh, sm))
    (he : parseTimeHM st.endTime = some (eh, em)) :
    calculateShiftDuration st =
      ((if eh * 60 + em < sh * 60 + sm then ((eh * 60 + em + 1440 : Nat) : ℚ)
        else ((eh * 60 + em : Nat) : ℚ)) - ((sh * 60 + sm : Nat) : ℚ)) / 60 := by
  unfold calculateShiftDuration
  rw [hs, he]
  by_cases hc : eh * 60 + em < sh * 60 + sm
  · have hcq : ((eh : ℚ) * 60 + em < (sh : ℚ) * 60 + sm) := by
      exact_mod_cast hc
    simp only [if_pos hc, if_pos hcq]
    push_cast
    ring
  · have hcq : ¬ ((eh : ℚ) * 60 + em < (sh : ℚ) * 60 + sm) := by
      exact_mod_cast hc
    simp only [if_neg hc, if_neg hcq]
    push_cast
    ring

/-- C4.  For well-formed `"HH:MM"` start and end times the duration
calculator returns `((end + 1440 if end < start else end) − start) / 60`
hours (minutes since midnight), which is non-negative; in particular
`"22:00"`–`"06:00"` gives `8`, `"08:00"`–`"16:00"` gives `8`, and
`"09:00"`–`"09:00"` gives `0`. -/
theorem calculateShiftDuration_spec (st : ShiftType) (sh sm eh em : Nat)
    (hs : parseTimeHM st.startTime = some (sh, sm))
    (he : parseTimeHM st.endTime = some (eh, em))
    (hsh : sh < 24) (hsm : sm < 60) (hem : em < 60) :
    calculateShiftDuration st =
      ((if eh * 60 + em < sh * 60 + sm then ((eh * 60 + em + 1440 : Nat) : ℚ)
        else ((eh * 60 + em : Nat) : ℚ)) - ((sh * 60 + sm : Nat) : ℚ)) / 60 ∧
    0 ≤ calculateShiftDuration st ∧
    calculateShiftDuration sampleShiftNight = 8 ∧
    calculateShiftDuration sampleShiftDay = 8 ∧
    calculateShiftDuration sampleShiftZero = 0 := by
  have hform := calculateShiftDuration_eval st sh sm eh em hs he
  refine ⟨hform, ?_, ?_, ?_, ?_⟩
  · rw [hform]
    have hstart : sh * 60 + sm < 1440 := by omega
    by_cases hc : eh * 60 + em < sh * 60 + sm
    · rw [if_pos hc]
      have : ((sh * 60 + sm : Nat) : ℚ) ≤ ((eh * 60 + em + 1440 : Nat) : ℚ) := by
        exact_mod_cast Nat.le_of_lt (by omega)
      have hnum : (0 : ℚ) ≤ ((eh * 60 + em + 1440 : Nat) : ℚ) - ((sh * 60 + sm : Nat) : ℚ) := by
        linarith
      positivity
    · rw [if_neg hc]
      have : ((sh * 60 + sm : Nat) : ℚ) ≤ ((eh * 60 + em : Nat) : ℚ) := by
        exact_mod_cast Nat.le_of_not_lt hc
      have hnum : (0 : ℚ) ≤ ((eh * 60 + em : Nat) : ℚ) - ((sh * 60 + sm : Nat) : ℚ) := by
        linarith
      positivity
  · rw [calculateShiftDuration_eval sampleShiftNight 22 0 6 0 (by decide) (by decide)]
    norm_num
  · rw [calculateShiftDuration_eval sampleShiftDay 8 0 16 0 (by decide) (by decide)]
    norm_num
  · rw [calculateShiftDuration_eval sampleShiftZero 9 0 9 0 (by decide) (by decide)]
    norm_num

/-- Witness for C4 at the concrete overnight shift `"22:00"`–`"06:00"`. -/
theorem calculateShiftDuration_spec_witness :
    parseTimeHM "22:00" = some (22, 0) ∧ parseTimeHM "06:00" = some (6, 0) ∧
    0 ≤ calculateShiftDuration sampleShiftNight :=
  ⟨by decide, by decide,
    (calculateShiftDuration_spec sampleShiftNight 22 0 6 0 (by decide) (by decide)
      (by decide) (by decide) (by decide)).2.1⟩

/-! ### The availability checker's overnight rule -/

/-- C5 (amended).  For an overnight shift (end time textually less than start
time), on a working weekday whose following day is also a working weekday: if
the shift's end hour lies strictly between `0` and noon (the source requires
`0 < endHour < 12`, not merely `endHour < 12`) and the employee's next-day
`_AM` flag is explicitly `false`, the availability check returns `false`. -/
theorem overnight_nextday_AM_unavailable (e : Employee) (d : Nat) (st : ShiftType)
    (wd nwd : String)
    (hw : getWeekdayName d = some wd) (hnw : getWeekdayName (d + 1) = some nwd)
    (hov : strLtB st.endTime st.startTime = true)
    (h0 : 0 < endHourOf st) (h12 : endHourOf st < 12)
    (hflag : e.availability (nwd ++ "_AM") = some false) :
    isEmployeeAvailable e d st = false := by
  unfold isEmployeeAvailable
  simp only [hw]
  by_cases h1 : startHourOf st < 12 ∧ e.availability (wd ++ "_AM") = some false
  · rw [if_pos h1]
  · rw [if_neg h1]
    by_cases h2 : (12 ≤ endHourOf st ∨ (12 ≤ startHourOf st ∧ startHourOf st < 24)) ∧
        e.availability (wd ++ "_PM") = some false
    · rw [if_pos h2]
    · rw [if_neg h2, if_pos hov]
      simp only [hnw]
      rw [if_pos ⟨h0, h12, hflag⟩]

/-- Witness for the amended C5: the `"22:00"`–`"06:00"` shift on a Monday
(day index 4) for an employee whose `tuesday_AM` flag is explicitly false. -/
theorem overnight_nextday_AM_unavailable_witness :
    getWeekdayName 4 = some "monday" ∧ getWeekdayName 5 = some "tuesday" ∧
    strLtB sampleShiftNight.endTime sampleShiftNight.startTime = true ∧
    0 < endHourOf sampleShiftNight ∧ endHourOf sampleShiftNight < 12 ∧
    cexEmpC5.availability ("tuesday" ++ "_AM") = some false ∧
    isEmployeeAvailable cexEmpC5 4 sampleShiftNight = false :=
  ⟨by decide, by decide, by decide, by decide, by decide, by decide,
    overnight_nextday_AM_unavailable cexEmpC5 4 sampleShiftNight "monday" "tuesday"
      (by decide) (by decide) (by decide) (by decide) (by decide) (by decide)⟩

/-- C5, counterexample to the claim as stated: the overnight shift
`"22:00"`–`"00:30"` ends at hour `0` — before noon — on a working weekday
followed by a working weekday, the employee's next-day `_AM` flag is
explicitly false, yet the availability check returns `true`, because the
source's overnight branch additionally requires `shiftEndHour > 0`. -/
theorem overnight_midnight_end_cex :
    strLtB cexNightShift.endTime cexNightShift.startTime = true ∧
    endHourOf cexNightShift < 12 ∧
    getWeekdayName 4 = some "monday" ∧
    getWeekdayName 5 = some "tuesday" ∧
    cexEmpC5.availability ("tuesday" ++ "_AM") = some false ∧
    isEmployeeAvailable cexEmpC5 4 cexNightShift = true :=
  ⟨by decide, by decide, by decide, by decide, by decide, by decide⟩

/-! ### Basic facts about `assignShift` -/

theorem assignShift_false_state (env : ScheduleOptions) (e : Employee) (d : Nat)
    (st : ShiftType) (fu : Bool) (s : SchedulerState)
    (h : (assignShift env e d st fu s).1 = false) :
    (assignShift env e d st fu s).2 = s := by
  unfold assignShift at h ⊢
  split_ifs at h ⊢ with h1 h2
  · rfl
  · rfl
  · rcases fu with _ | _ <;>
      rcases hmf : checkMandatoryFollowUps env.learningYearQualifications
        env.shiftTypes env.shiftRules e d st with _ | f <;>
      simp [hmf] at h

theorem assignShift_conflicts (env : ScheduleOptions) (e : Employee) (d : Nat)
    (st : ShiftType) (fu : Bool) (s : SchedulerState) :
    (assignShift env e d st fu s).2.conflicts = s.conflicts := by
  unfold assignShift
  split_ifs with h1 h2
  · rfl
  · rfl
  · rcases fu with _ | _ <;>
      rcases hmf : checkMandatoryFollowUps env.learningYearQualifications
        env.shiftTypes env.shiftRules e d st with _ | f <;>
      simp [hmf, pushAssignment]

/-- C7.  Committing a follow-up assignment (`isFollowUp = true`) always
succeeds, appends exactly one record to the Assignment Store, and never
triggers a further follow-up commit: the primary-then-follow-up chain has
depth at most one. -/
theorem followUp_commit_appends_exactly_one (env : ScheduleOptions) (e : Employee)
    (d : Nat) (st : ShiftType) (s : SchedulerState) :
    (assignShift env e d st true s).1 = true ∧
    (assignShift env e d st true s).2.assignments = s.assignments ++
      [{ employeeId := e.id, shiftId := st.id, date := d,
         locked := false, isFollowUp := true }] := by
  unfold assignShift
  rw [if_neg (by simp), if_neg (by simp)]
  rcases hmf : checkMandatoryFollowUps env.learningYearQualifications
      env.shiftTypes env.shiftRules e d st with _ | f <;>
    simp [hmf, pushAssignment]

/-! ### Primary-slot occupancy (C1) -/

/-- C1 (amended).  A non-follow-up commit succeeds exactly when the slot
`(date, shiftId)` holds *no* assignment of any kind — follow-up assignments
do contend for primary slot occupancy — and the employee holds no primary
assignment on that date.  A follow-up commit always succeeds, so a primary
and a follow-up can coexist on one `(date, shiftId)` only by committing the
primary first. -/
theorem primary_commit_iff_slot_empty (env : ScheduleOptions) (e : Employee)
    (d : Nat) (st : ShiftType) (s : SchedulerState) :
    ((assignShift env e d st false s).1 = true ↔
      (s.assignments.find? (fun a => a.date == d && a.shiftId == st.id)) = none ∧
      (s.assignments.find? (fun a =>
        a.employeeId == e.id && a.date == d && !a.isFollowUp)) = none) ∧
    (assignShift env e d st true s).1 = true := by
  constructor
  · unfold assignShift
    split_ifs with h1 h2
    · simp only [show ¬((false, s).1 = true) from by simp, false_iff]
      rintro ⟨ha, hb⟩
      rw [ha] at h1
      simp at h1
    · simp only [show ¬((false, s).1 = true) from by simp, false_iff]
      rintro ⟨ha, hb⟩
      rw [hb] at h2
      simp at h2
    · refine iff_of_true ?_ ⟨?_, ?_⟩
      · rcases hmf : checkMandatoryFollowUps env.learningYearQualifications
          env.shiftTypes env.shiftRules e d st with _ | f <;> simp [hmf]
      · rcases hfind : s.assignments.find? (fun a => a.date == d && a.shiftId == st.id)
          with _ | v
        · exact hfind
        · exact absurd ⟨by rw [hfind]; rfl, rfl⟩ h1
      · rcases hfind : s.assignments.find? (fun a =>
            a.employeeId == e.id && a.date == d && !a.isFollowUp) with _ | v
        · exact hfind
        · exact absurd ⟨rfl, by rw [hfind]; rfl⟩ h2
  · exact (followUp_commit_appends_exactly_one env e d st s).1

/-- C1, counterexample to the claim as stated: a slot occupied only by a
follow-up assignment rejects a non-follow-up commit of an otherwise eligible
employee (the source's occupancy check does not exclude follow-ups). -/
theorem followUp_blocks_primary_cex :
    (∀ a ∈ cexStateC1.assignments, a.isFollowUp = true) ∧
    (cexStateC1.assignments.find? (fun a =>
      a.employeeId == cexEmpC5.id && a.date == 4 && !a.isFollowUp)) = none ∧
    (assignShift cexEnvC1 cexEmpC5 4 cexSlotShift false cexStateC1).1 = false :=
  ⟨by decide, by decide, by decide⟩

/-! ### Invariant preservation by `assignShift` -/

theorem find?_slot_eq_none {l : List ShiftAssignment} {d : Nat} {sid : String}
    (h : l.find? (fun a => a.date == d && a.shiftId == sid) = none) :
    ∀ a ∈ l, ¬(a.date = d ∧ a.shiftId = sid) := by
  intro a ha hc
  have h2 := List.find?_eq_none.mp h a ha
  simp [hc.1, hc.2] at h2

theorem find?_empPrim_eq_none {l : List ShiftAssignment} {eid : String} {d : Nat}
    (h : l.find? (fun a => a.employeeId == eid && a.date == d && !a.isFollowUp) = none) :
    ∀ a ∈ l, a.isFollowUp = false → ¬(a.employeeId = eid ∧ a.date = d) := by
  intro a ha hfu hc
  have h2 := List.find?_eq_none.mp h a ha
  simp [hc.1, hc.2, hfu] at h2

theorem pairwise_append_single {α : Type} {R : α → α → Prop} {l : List α} {x : α}
    (h : l.Pairwise R) (hx : ∀ a ∈ l, R a x) : (l ++ [x]).Pairwise R := by
  rw [List.pairwise_append]
  refine ⟨h, List.pairwise_singleton _ _, ?_⟩
  intro a ha b hb
  simp only [List.mem_singleton] at hb
  subst hb
  exact hx a ha

theorem noPrimarySlotClash_push_followUp (e : Employee) (d : Nat) (st : ShiftType)
    (s : SchedulerState) (h : noPrimarySlotClash s.assignments) :
    noPrimarySlotClash (pushAssignment e d st true s).assignments := by
  unfold pushAssignment noPrimarySlotClash at *
  refine pairwise_append_single h ?_
  intro a _ _ h2
  simp at h2

theorem noPrimarySlotClash_push_primary (e : Employee) (d : Nat) (st : ShiftType)
    (s : SchedulerState)
    (hslot : ∀ a ∈ s.assignments, ¬(a.date = d ∧ a.shiftId = st.id))
    (h : noPrimarySlotClash s.assignments) :
    noPrimarySlotClash (pushAssignment e d st false s).assignments := by
  unfold pushAssignment noPrimarySlotClash at *
  refine pairwise_append_single h ?_
  intro a ha _ _ hc
  exact hslot a ha (by simpa using hc)

theorem onePrimaryPerEmployeeDate_push_followUp (e : Employee) (d : Nat) (st : ShiftType)
    (s : SchedulerState) (h : onePrimaryPerEmployeeDate s.assignments) :
    onePrimaryPerEmployeeDate (pushAssignment e d st true s).assignments := by
  unfold pushAssignment onePrimaryPerEmployeeDate at *
  refine pairwise_append_single h ?_
  intro a _ _ h2
  simp at h2

theorem onePrimaryPerEmployeeDate_push_primary (e : Employee) (d : Nat) (st : ShiftType)
    (s : SchedulerState)
    (hemp : ∀ a ∈ s.assignments, a.isFollowUp = false → ¬(a.employeeId = e.id ∧ a.date = d))
    (h : onePrimaryPerEmployeeDate s.assignments) :
    onePrimaryPerEmployeeDate (pushAssignment e d st false s).assignments := by
  unfold pushAssignment onePrimaryPerEmployeeDate at *
  refine pairwise_append_single h ?_
  intro a ha hfa _ hc
  exact hemp a ha hfa (by simpa using hc)

theorem assignShift_preserves_noPrimarySlotClash (env : ScheduleOptions)
    (e : Employee) (d : Nat) (st : ShiftType) (fu : Bool) (s : SchedulerState)
    (h : noPrimarySlotClash s.assignments) :
    noPrimarySlotClash (assignShift env e d st fu s).2.assignments := by
  unfold assignShift
  split_ifs with h1 h2
  · exact h
  · exact h
  · rcases fu with _ | _
    · have h1' : (s.assignments.find? (fun a => a.date == d && a.shiftId == st.id)) = none :=
        Option.not_isSome_iff_eq_none.mp (fun hs => h1 ⟨hs, rfl⟩)
      have hslot := find?_slot_eq_none h1'
      rcases hmf : checkMandatoryFollowUps env.learningYearQualifications
          env.shiftTypes env.shiftRules e d st with _ | f <;> simp only [hmf]
      · exact noPrimarySlotClash_push_primary e d st s hslot h
      · exact noPrimarySlotClash_push_followUp e d f _
          (noPrimarySlotClash_push_primary e d st s hslot h)
    · rcases hmf : checkMandatoryFollowUps env.learningYearQualifications
          env.shiftTypes env.shiftRules e d st with _ | f <;> simp only [hmf] <;>
        exact noPrimarySlotClash_push_followUp e d st s h

theorem assignShift_preserves_onePrimaryPerEmployeeDate (env : ScheduleOptions)
    (e : Employee) (d : Nat) (st : ShiftType) (fu : Bool) (s : SchedulerState)
    (h : onePrimaryPerEmployeeDate s.assignments) :
    onePrimaryPerEmployeeDate (assignShift env e d st fu s).2.assignments := by
  unfold assignShift
  split_ifs with h1 h2
  · exact h
  · exact h
  · rcases fu with _ | _
    · have h2' : (s.assignments.find? (fun a =>
          a.employeeId == e.id && a.date == d && !a.isFollowUp)) = none :=
        Option.not_isSome_iff_eq_none.mp (fun hs => h2 ⟨rfl, hs⟩)
      have hemp := find?_empPrim_eq_none h2'
      rcases hmf : checkMandatoryFollowUps env.learningYearQualifications
          env.shiftTypes env.shiftRules e d st with _ | f <;> simp only [hmf]
      · exact onePrimaryPerEmployeeDate_push_primary e d st s hemp h
      · exact onePrimaryPerEmployeeDate_push_followUp e d f _
          (onePrimaryPerEmployeeDate_push_primary e d st s hemp h)
    · rcases hmf : checkMandatoryFollowUps env.learningYearQualifications
          env.shiftTypes env.shiftRules e d st with _ | f <;> simp only [hmf] <;>
        exact onePrimaryPerEmployeeDate_push_followUp e d st s h

theorem assignShift_preserves_locked (env : ScheduleOptions) (P0 : List ShiftAssignment)
    (e : Employee) (d : Nat) (st : ShiftType) (fu : Bool) (s : SchedulerState)
    (h : ∀ a ∈ s.assignments, a.locked = true → a ∈ P0) :
    ∀ a ∈ (assignShift env e d st fu s).2.assignments, a.locked = true → a ∈ P0 := by
  unfold assignShift
  split_ifs with h1 h2
  · exact h
  · exact h
  · rcases fu with _ | _ <;>
      rcases hmf : checkMandatoryFollowUps env.learningYearQualifications
        env.shiftTypes env.shiftRules e d st with _ | f <;>
      simp only [hmf] <;> unfold pushAssignment <;> intro a ha hl <;>
      simp only [List.mem_append, List.mem_singleton] at ha
    · rcases ha with ha | ha
      · exact h a ha hl
      · subst ha; cases hl
    · rcases ha with (ha | ha) | ha
      · exact h a ha hl
      · subst ha; cases hl
      · subst ha; cases hl
    · rcases ha with ha | ha
      · exact h a ha hl
      · subst ha; cases hl
    · rcases ha with ha | ha
      · exact h a ha hl
      · subst ha; cases hl

theorem assignShift_true_primary_mem (env : ScheduleOptions) (e : Employee)
    (d : Nat) (st : ShiftType) (s : SchedulerState)
    (h : (assignShift env e d st false s).1 = true) :
    ({ employeeId := e.id, shiftId := st.id, date := d, locked := false,
       isFollowUp := false } : ShiftAssignment) ∈
      (assignShift env e d st false s).2.assignments := by
  unfold assignShift at h ⊢
  split_ifs at h ⊢ with h1 h2
  rcases hmf : checkMandatoryFollowUps env.learningYearQualifications
      env.shiftTypes env.shiftRules e d st with _ | f <;>
    simp [hmf, pushAssignment]

/-! ### Reachability of engine states through `assignShift` steps -/

theorem Evolves.trans {env : ScheduleOptions} {s₁ s₂ s₃ : SchedulerState}
    (h12 : Evolves env s₁ s₂) (h23 : Evolves env s₂ s₃) : Evolves env s₁ s₃ := by
  induction h23 with
  | refl _ => exact h12
  | assign e d st fu _ ih => exact Evolves.assign e d st fu (ih h12)
  | pushConflict msg _ ih => exact Evolves.pushConflict msg (ih h12)

theorem evolves_assignShift (env : ScheduleOptions) (e : Employee) (d : Nat)
    (st : ShiftType) (fu : Bool) (s : SchedulerState) :
    Evolves env s (assignShift env e d st fu s).2 :=
  Evolves.assign e d st fu (Evolves.refl s)

theorem evolves_preserves (env : ScheduleOptions) (P : List ShiftAssignment → Prop)
    (hP : ∀ e d st fu s, P s.assignments → P (assignShift env e d st fu s).2.assignments)
    {s s' : SchedulerState} (h : Evolves env s s') (h0 : P s.assignments) :
    P s'.assignments := by
  induction h with
  | refl _ => exact h0
  | assign e d st fu _ ih => exact hP e d st fu _ (ih h0)
  | pushConflict msg _ ih => exact ih h0

theorem tryStrategyLoop_evolves (env : ScheduleOptions) (d : Nat) (st : ShiftType)
    (er : Bool) : ∀ (emps : List Employee) (s : SchedulerState),
    Evolves env s (tryStrategyLoop env d st er emps s).2 := by
  intro emps
  induction emps with
  | nil => intro s; exact Evolves.refl s
  | cons e rest ih =>
    intro s
    unfold tryStrategyLoop
    split_ifs with h1 h2 h3 h4
    · exact ih s
    · exact ih s
    · exact ih s
    · exact ih s
    · rcases hr : assignShift env e d st false s with ⟨b, s1⟩
      have hes : Evolves env s s1 := by
        have := evolves_assignShift env e d st false s
        rwa [hr] at this
      rcases b with _ | _
      · simp only [hr]
        exact hes.trans (ih s1)
      · simp only [hr]
        exact hes

theorem tryAssignShiftWithStrategy_evolves (env : ScheduleOptions) (d : Nat)
    (st : ShiftType) (er : Bool) (s : SchedulerState) :
    Evolves env s (tryAssignShiftWithStrategy env d st er s).2 :=
  tryStrategyLoop_evolves env d st er _ s

theorem tryEmergencyLoop_evolves (env : ScheduleOptions) (d : Nat) (st : ShiftType) :
    ∀ (emps : List Employee) (s : SchedulerState),
    Evolves env s (tryEmergencyLoop env d st emps s).2 := by
  intro emps
  induction emps with
  | nil => intro s; exact Evolves.refl s
  | cons e rest ih =>
    intro s
    unfold tryEmergencyLoop
    split_ifs with h1 h2
    · exact ih s
    · exact ih s
    · rcases hr : assignShift env e d st false s with ⟨b, s1⟩
      have hes : Evolves env s s1 := by
        have := evolves_assignShift env e d st false s
        rwa [hr] at this
      rcases b with _ | _
      · simp only [hr]
        exact hes.trans (ih s1)
      · simp only [hr]
        exact Evolves.pushConflict _ hes

theorem tryEmergencyAssignment_evolves (env : ScheduleOptions) (d : Nat)
    (st : ShiftType) (s : SchedulerState) :
    Evolves env s (tryEmergencyAssignment env d st s).2 :=
  tryEmergencyLoop_evolves env d st _ s

theorem scheduleSlotStep_evolves (env : ScheduleOptions) (d : Nat) (st : ShiftType)
    (i : Nat) (s : SchedulerState) : Evolves env s (scheduleSlotStep env d st i s) := by
  unfold scheduleSlotStep
  rcases hr1 : tryAssignShiftWithStrategy env d st true s with ⟨b1, s1⟩
  have he1 : Evolves env s s1 := by
    have := tryAssignShiftWithStrategy_evolves env d st true s
    rwa [hr1] at this
  rcases b1 with _ | _
  · rcases hr2 : tryAssignShiftWithStrategy env d st false s1 with ⟨b2, s2⟩
    have he2 : Evolves env s1 s2 := by
      have := tryAssignShiftWithStrategy_evolves env d st false s1
      rwa [hr2] at this
    simp only [hr2]
    rcases b2 with _ | _
    · rcases hr3 : tryEmergencyAssignment env d st s2 with ⟨b3, s3⟩
      have he3 : Evolves env s2 s3 := by
        have := tryEmergencyAssignment_evolves env d st s2
        rwa [hr3] at this
      simp only [hr3]
      rcases b3 with _ | _
      · exact (he1.trans (he2.trans he3)).pushConflict _
      · exact he1.trans (he2.trans he3)
    · exact he1.trans he2
  · exact he1

theorem scheduleSlots_evolves (env : ScheduleOptions) (d : Nat) (st : ShiftType) :
    ∀ (n i : Nat) (s : SchedulerState), Evolves env s (scheduleSlots env d st n i s) := by
  intro n
  induction n with
  | zero => intro i s; exact Evolves.refl s
  | succ m ih =>
    intro i s
    exact (scheduleSlotStep_evolves env d st i s).trans (ih (i + 1) _)

theorem foldl_evolves (env : ScheduleOptions) {α : Type}
    (f : SchedulerState → α → SchedulerState)
    (hf : ∀ s a, Evolves env s (f s a)) :
    ∀ (l : List α) (s : SchedulerState), Evolves env s (l.foldl f s) := by
  intro l
  induction l with
  | nil => intro s; exact Evolves.refl s
  | cons a rest ih => intro s; exact (hf s a).trans (ih (f s a))

theorem scheduleDay_evolves (env : ScheduleOptions) (d : Nat) (wd : String)
    (s : SchedulerState) : Evolves env s (scheduleDay env d wd s) := by
  unfold scheduleDay
  refine foldl_evolves env _ ?_ _ s
  intro s stc
  exact scheduleSlots_evolves env d stc.1 _ 0 s

theorem enforceFollowUpFor_evolves (env : ScheduleOptions) (toId : String)
    (fa : ShiftAssignment) (s : SchedulerState) :
    Evolves env s (enforceFollowUpFor env toId fa s) := by
  unfold enforceFollowUpFor
  rcases hemp : env.employees.find? (fun e => e.id == fa.employeeId) with _ | employee <;>
    rcases hst : env.shiftTypes.find? (fun st => st.id == toId) with _ | toShiftType <;>
    simp only [hemp, hst]
  · exact Evolves.refl s
  · exact Evolves.refl s
  · exact Evolves.refl s
  · split_ifs with h1 h2 h3 h4
    · exact Evolves.refl s
    · exact Evolves.pushConflict _ (Evolves.refl s)
    · exact Evolves.pushConflict _ (Evolves.refl s)
    · exact Evolves.pushConflict _ (Evolves.refl s)
    · exact evolves_assignShift env employee fa.date toShiftType true s

theorem enforceMandatoryFollowUps_evolves (env : ScheduleOptions) (s : SchedulerState) :
    Evolves env s (enforceMandatoryFollowUps env s) := by
  unfold enforceMandatoryFollowUps
  refine foldl_evolves env _ ?_ _ s
  intro s rule
  rcases rule.toShiftId with _ | toId
  · exact Evolves.refl s
  · dsimp only
    split_ifs with h1
    · exact Evolves.refl s
    · exact foldl_evolves env _ (fun s fa => enforceFollowUpFor_evolves env toId fa s) _ s

theorem runDays_evolves (env : ScheduleOptions) (s : SchedulerState) :
    Evolves env s (runDays env s) := by
  unfold runDays
  refine foldl_evolves env _ ?_ _ s
  intro s d
  rcases getWeekdayName d with _ | wd
  · exact Evolves.refl s
  · exact scheduleDay_evolves env d wd s

theorem schedule_evolves (env : ScheduleOptions) :
    Evolves env (initState env) (finalState env) :=
  (runDays_evolves env (initState env)).trans
    (enforceMandatoryFollowUps_evolves env (runDays env (initState env)))

/-! ### The store invariants over whole scheduling runs -/

/-- C2.  If the pre-existing assignment list has no two primary assignments
sharing a `(date, shiftId)` slot, then every `Evolves`-reachable state of the
Assignment Store keeps that invariant — `assignShift` rejects a non-follow-up
commit into an occupied primary slot — and in particular the final output of
a full scheduling run satisfies it. -/
theorem noPrimarySlotClash_invariant (opts : ScheduleOptions) :
    (∀ s s' : SchedulerState, Evolves opts s s' →
      noPrimarySlotClash s.assignments → noPrimarySlotClash s'.assignments) ∧
    (noPrimarySlotClash opts.existingAssignments →
      noPrimarySlotClash (generateShiftSchedule opts).assignments) := by
  constructor
  · intro s s' h h0
    exact evolves_preserves opts noPrimarySlotClash
      (fun e d st fu s => assignShift_preserves_noPrimarySlotClash opts e d st fu s) h h0
  · intro h0
    exact evolves_preserves opts noPrimarySlotClash
      (fun e d st fu s => assignShift_preserves_noPrimarySlotClash opts e d st fu s)
      (schedule_evolves opts) h0

/-- Witness for C2 on a concrete run. -/
theorem noPrimarySlotClash_invariant_witness :
    noPrimarySlotClash optsTrivial.existingAssignments ∧
    noPrimarySlotClash (generateShiftSchedule optsTrivial).assignments :=
  ⟨by simp [optsTrivial, noPrimarySlotClash],
    (noPrimarySlotClash_invariant optsTrivial).2 (by simp [optsTrivial, noPrimarySlotClash])⟩

/-- C3.  If the pre-existing assignment list gives no employee two primary
assignments on one date, then every `Evolves`-reachable state of the
Assignment Store keeps that invariant — including the final output; the
invariant only constrains non-follow-up records, so an employee may hold
several follow-up assignments on one date. -/
theorem onePrimaryPerEmployeeDate_invariant (opts : ScheduleOptions) :
    (∀ s s' : SchedulerState, Evolves opts s s' →
      onePrimaryPerEmployeeDate s.assignments → onePrimaryPerEmployeeDate s'.assignments) ∧
    (onePrimaryPerEmployeeDate opts.existingAssignments →
      onePrimaryPerEmployeeDate (generateShiftSchedule opts).assignments) := by
  constructor
  · intro s s' h h0
    exact evolves_preserves opts onePrimaryPerEmployeeDate
      (fun e d st fu s => assignShift_preserves_onePrimaryPerEmployeeDate opts e d st fu s) h h0
  · intro h0
    exact evolves_preserves opts onePrimaryPerEmployeeDate
      (fun e d st fu s => assignShift_preserves_onePrimaryPerEmployeeDate opts e d st fu s)
      (schedule_evolves opts) h0

/-- Witness for C3 on a concrete run. -/
theorem onePrimaryPerEmployeeDate_invariant_witness :
    onePrimaryPerEmployeeDate optsTrivial.existingAssignments ∧
    onePrimaryPerEmployeeDate (generateShiftSchedule optsTrivial).assignments :=
  ⟨by simp [optsTrivial, onePrimaryPerEmployeeDate],
    (onePrimaryPerEmployeeDate_invariant optsTrivial).2
      (by simp [optsTrivial, onePrimaryPerEmployeeDate])⟩

/-- C10.  Every assignment the engine itself appends carries
`locked = false`, so every `locked = true` record in any reachable state —
in particular in the final output — was already present in the pre-existing
input list. -/
theorem engine_assignments_unlocked (opts : ScheduleOptions) :
    (∀ s s' : SchedulerState, Evolves opts s s' →
      (∀ a ∈ s.assignments, a.locked = true → a ∈ opts.existingAssignments) →
      ∀ a ∈ s'.assignments, a.locked = true → a ∈ opts.existingAssignments) ∧
    (∀ a ∈ (generateShiftSchedule opts).assignments, a.locked = true →
      a ∈ opts.existingAssignments) := by
  constructor
  · intro s s' h h0
    exact evolves_preserves opts
      (fun l => ∀ a ∈ l, a.locked = true → a ∈ opts.existingAssignments)
      (fun e d st fu s => assignShift_preserves_locked opts opts.existingAssignments e d st fu s)
      h h0
  · exact evolves_preserves opts
      (fun l => ∀ a ∈ l, a.locked = true → a ∈ opts.existingAssignments)
      (fun e d st fu s => assignShift_preserves_locked opts opts.existingAssignments e d st fu s)
      (schedule_evolves opts) (fun a ha _ => ha)

/-- Witness for C10 on a concrete run seeded with one locked assignment. -/
theorem engine_assignments_unlocked_witness :
    lockedAssign ∈ (generateShiftSchedule optsLocked).assignments ∧
    lockedAssign.locked = true ∧ lockedAssign ∈ optsLocked.existingAssignments :=
  ⟨by decide, rfl,
    (engine_assignments_unlocked optsLocked).2 lockedAssign (by decide) rfl⟩

/-! ### The emergency strategy logs its overrides (C9) -/

theorem tryEmergencyLoop_spec (env : ScheduleOptions) (d : Nat) (st : ShiftType) :
    ∀ (emps : List Employee) (s : SchedulerState),
    (tryEmergencyLoop env d st emps s).1 = true →
    ∃ e ∈ emps, isEmployeeQualified env.learningYearQualifications e st = true ∧
      (tryEmergencyLoop env d st emps s).2.conflicts =
        s.conflicts ++ [emergencyMsg e st d] ∧
      ({ employeeId := e.id, shiftId := st.id, date := d, locked := false,
         isFollowUp := false } : ShiftAssignment) ∈
        (tryEmergencyLoop env d st emps s).2.assignments := by
  intro emps
  induction emps with
  | nil =>
    intro s h
    simp [tryEmergencyLoop] at h
  | cons e rest ih =>
    intro s h
    unfold tryEmergencyLoop at h ⊢
    split_ifs at h ⊢ with h1 h2
    · obtain ⟨e', he', hq, hc, hm⟩ := ih s h
      exact ⟨e', List.mem_cons_of_mem e he', hq, hc, hm⟩
    · obtain ⟨e', he', hq, hc, hm⟩ := ih s h
      exact ⟨e', List.mem_cons_of_mem e he', hq, hc, hm⟩
    · rcases hr : assignShift env e d st false s with ⟨b, s1⟩
      rcases b with _ | _
      · have hs1 : s1 = s := by
          have h0 : (assignShift env e d st false s).1 = false := by rw [hr]
          have h3 := assignShift_false_state env e d st false s h0
          rw [hr] at h3
          exact h3
        simp only [hr] at h ⊢
        subst hs1
        obtain ⟨e', he', hq, hc, hm⟩ := ih s1 h
        exact ⟨e', List.mem_cons_of_mem e he', hq, hc, hm⟩
      · simp only [hr] at h ⊢
        refine ⟨e, List.mem_cons_self e rest, by simpa using h2, ?_, ?_⟩
        · have hc1 : s1.conflicts = s.conflicts := by
            have h3 := assignShift_conflicts env e d st false s
            rw [hr] at h3
            exact h3
          simp [hc1]
        · have hm := assignShift_true_primary_mem env e d st s (by rw [hr])
          rw [hr] at hm
          simpa using hm

/-- C9.  Whenever the emergency strategy fills a slot, the chosen employee
passed the qualification check, the committed primary assignment is in the
resulting store, and exactly one emergency-override conflict string is
appended to the conflict list in the same step. -/
theorem emergency_assignment_logs_conflict (env : ScheduleOptions) (d : Nat)
    (st : ShiftType) (s : SchedulerState)
    (h : (tryEmergencyAssignment env d st s).1 = true) :
    ∃ e ∈ env.employees,
      isEmployeeQualified env.learningYearQualifications e st = true ∧
      (tryEmergencyAssignment env d st s).2.conflicts =
        s.conflicts ++ [emergencyMsg e st d] ∧
      ({ employeeId := e.id, shiftId := st.id, date := d, locked := false,
         isFollowUp := false } : ShiftAssignment) ∈
        (tryEmergencyAssignment env d st s).2.assignments := by
  obtain ⟨e, he, hq, hc, hm⟩ := tryEmergencyLoop_spec env d st _ s h
  refine ⟨e, ?_, hq, hc, hm⟩
  exact (sortLe_perm (wlLe s.employeeWorkloads) env.employees).mem_iff.mp he

/-- Witness for C9 on a concrete emergency fill. -/
theorem emergency_assignment_logs_conflict_witness :
    (tryEmergencyAssignment cexEnvC1 4 cexSlotShift stateEmpty).1 = true ∧
    ∃ e ∈ cexEnvC1.employees,
      isEmployeeQualified cexEnvC1.learningYearQualifications e cexSlotShift = true ∧
      (tryEmergencyAssignment cexEnvC1 4 cexSlotShift stateEmpty).2.conflicts =
        stateEmpty.conflicts ++ [emergencyMsg e cexSlotShift 4] ∧
      ({ employeeId := e.id, shiftId := cexSlotShift.id, date := 4, locked := false,
         isFollowUp := false } : ShiftAssignment) ∈
        (tryEmergencyAssignment cexEnvC1 4 cexSlotShift stateEmpty).2.assignments :=
  ⟨by decide,
    emergency_assignment_logs_conflict cexEnvC1 4 cexSlotShift stateEmpty (by decide)⟩
